import Mathlib

/-!
Shallow embedding of `src/check.py` (ProxyClean): the probe-result data
type, the Clash API client operations `check_connection` and
`test_proxy_delay`, the configuration operations
`remove_invalid_proxies`, `update_group_proxies` and
`get_group_proxies`, and the exit-code dispatch of `main` together with
the top-level handlers, plus theorems settling the frozen claims.
-/

/-- Python float values occurring as delays in `check.py`: a finite value
(modelled as a rational, since every finite IEEE double is rational) or
the infinity produced by `float("inf")` at line 29. NaN never arises in
the paths the claims are about and is omitted. -/
inductive PyFloat where
  | finite (q : ℚ)
  | inf
  deriving DecidableEq, Repr

def PyFloat.isFinite : PyFloat → Bool
  | .finite _ => true
  | .inf => false

/-- The IEEE order used by Python when sorting delays: every finite value
is below `inf`. -/
def PyFloat.le : PyFloat → PyFloat → Bool
  | .finite a, .finite b => a ≤ b
  | _, .inf => true
  | .inf, .finite _ => false

/-- `ProxyTestResult` from `check.py` lines 24-35.  `objId` models Python
object identity (`id()`): the program never builds two distinct result
objects with the same `objId`, and `set()` on results compares by this
identity because the class defines no `__eq__`/`__hash__`. -/
structure ProxyTestResult where
  objId : Nat
  name : String
  delay : PyFloat
  status : String
  tested_time : ℚ
  deriving DecidableEq, Repr

/-- The constructor `ProxyTestResult.__init__` (lines 27-31):
`delay = delay if delay is not None else float("inf")` and
`status = "ok" if delay is not None else "fail"`; `tested_time`
is the construction instant. -/
def ProxyTestResult.make (objId : Nat) (name : String) (delay : Option PyFloat)
    (now : ℚ) : ProxyTestResult :=
  { objId := objId
    name := name
    delay := match delay with | some d => d | none => .inf
    status := if delay.isSome then "ok" else "fail"
    tested_time := now }

/-- `is_valid` property (lines 33-35). -/
def ProxyTestResult.is_valid (r : ProxyTestResult) : Bool := r.status == "ok"

/-- The sort key relation of line 191 (`key=lambda x: x.delay`). -/
def delayLE (a b : ProxyTestResult) : Prop := PyFloat.le a.delay b.delay = true

instance : DecidableRel delayLE := fun a b => by
  unfold delayLE; exact inferInstance

instance : IsTotal ProxyTestResult delayLE :=
  ⟨fun a b => by
    unfold delayLE
    cases a.delay <;> cases b.delay <;> simp [PyFloat.le, decide_eq_true_eq]
    exact le_total _ _⟩

instance : IsTrans ProxyTestResult delayLE :=
  ⟨fun a b c h1 h2 => by
    unfold delayLE at h1 h2 ⊢
    generalize a.delay = x at h1 ⊢
    generalize b.delay = y at h1 h2
    generalize c.delay = z at h2 ⊢
    cases x <;> cases y <;> cases z <;>
      simp_all [PyFloat.le, decide_eq_true_eq]
    linarith⟩

/-- One entry of the master `proxies` list of the configuration document;
only the `name` key (read via `p.get("name")`, line 172) is relevant to
the operations under study, and it may be absent. -/
structure ProxyEntry where
  name : Option String
  deriving DecidableEq, Repr

/-- One proxy group: a `name` and an optional `proxies` membership list
(the key may be absent, see lines 157 and 177). -/
structure ProxyGroup where
  name : String
  proxies : Option (List String)
  deriving DecidableEq, Repr

/-- The configuration document restricted to the parts touched by the
operations under study: the optional master `proxies` list (line 170)
and the `proxy-groups` list (line 147, defaulting to empty). All other
sections pass through untouched and are omitted. -/
structure ClashConfigDoc where
  proxies : Option (List ProxyEntry)
  proxy_groups : List ProxyGroup
  deriving DecidableEq, Repr

/-- The failing names `{r.name for r in results if not r.is_valid}` of
line 163, as a list (only membership matters). -/
def invalidNames (results : List ProxyTestResult) : List String :=
  (results.filter (fun r => !r.is_valid)).map (·.name)

/-- The filter of lines 171-172 for one master-list entry: entries with
no `name` key are kept (`p.get("name")` is `None`, never in the set). -/
def keepEntry (invalid : List String) (p : ProxyEntry) : Bool :=
  match p.name with
  | some n => !(invalid.contains n)
  | none => true

/-- `ClashConfig.remove_invalid_proxies` (lines 160-181): early return
when no failing names, otherwise filter the master list and every
group membership list. -/
def remove_invalid_proxies (doc : ClashConfigDoc)
    (results : List ProxyTestResult) : ClashConfigDoc :=
  if invalidNames results = [] then doc
  else
    { proxies := doc.proxies.map (fun ps => ps.filter (keepEntry (invalidNames results)))
      proxy_groups := doc.proxy_groups.map (fun g =>
        { g with proxies := g.proxies.map (fun ps =>
            ps.filter (fun n => !((invalidNames results).contains n))) }) }

/-- Lines 189-191: keep the valid results, pass them through
`list(set(...))` — modelled by the parameter `pySet` since CPython
leaves the enumeration order of a set of identity-hashed objects
unspecified — and stably sort by delay.  Python `list.sort` is a stable
sort, and for a total preorder any stable sort produces the same
output, so it is modelled by `List.insertionSort` with the reflexive
relation `delayLE`. -/
def sortValidResults (pySet : List ProxyTestResult → List ProxyTestResult)
    (results : List ProxyTestResult) : List ProxyTestResult :=
  List.insertionSort delayLE (pySet (results.filter (·.is_valid)))

/-- The loop of lines 194-197: replace the `proxies` key of the first
group whose name matches, then `break`; later groups with the same name
are untouched, and an absent group leaves the list unchanged. -/
def updateFirstGroup : List ProxyGroup → String → List String → List ProxyGroup
  | [], _, _ => []
  | g :: gs, group_name, ps =>
    if g.name = group_name then { g with proxies := some ps } :: gs
    else g :: updateFirstGroup gs group_name ps

/-- `ClashConfig.update_group_proxies` (lines 183-197). -/
def update_group_proxies (pySet : List ProxyTestResult → List ProxyTestResult)
    (doc : ClashConfigDoc) (group_name : String)
    (results : List ProxyTestResult) : ClashConfigDoc :=
  ClashConfigDoc.mk (remove_invalid_proxies doc results).proxies
    (updateFirstGroup (remove_invalid_proxies doc results).proxy_groups group_name
      ((sortValidResults pySet results).map (·.name)))

/-- First group with a matching name (the loop of lines 155-157). -/
def findGroup (gs : List ProxyGroup) (group_name : String) : Option ProxyGroup :=
  gs.find? (fun g => g.name == group_name)

/-- `ClashConfig.get_group_proxies` (lines 153-158). -/
def get_group_proxies (doc : ClashConfigDoc) (group_name : String) : List String :=
  match findGroup doc.proxy_groups group_name with
  | some g => g.proxies.getD []
  | none => []

/-- What CPython guarantees about `ys = list(set(xs))` for a list `xs` of
result objects: every element of `ys` is an element of `xs` and
conversely, and `ys` repeats no object (objects compare by identity
because `ProxyTestResult` defines no `__eq__`/`__hash__`). The
enumeration order is unspecified. -/
def IsPySetList (xs ys : List ProxyTestResult) : Prop :=
  (∀ r ∈ ys, r ∈ xs) ∧ (∀ r ∈ xs, r ∈ ys) ∧
    ys.Pairwise (fun a b => a.objId ≠ b.objId)

instance (xs ys : List ProxyTestResult) : Decidable (IsPySetList xs ys) := by
  unfold IsPySetList; exact inferInstance

/-- Outcome of one HTTP GET as seen by the client code: a transport
failure (`httpx.RequestError`, a subclass of `httpx.HTTPError`) or a
response with a status code and a body.  The body either fails to parse
as JSON (`response.json()` raises `json.JSONDecodeError`, which is not
an `httpx` error) or parses to an object from which one optional
numeric field is read with `.get`. -/
inductive JsonBody where
  | invalid
  | obj (field : Option PyFloat)
  deriving DecidableEq, Repr

inductive HttpOutcome where
  | transportError
  | response (status : Nat) (body : JsonBody)
  deriving DecidableEq, Repr

/-- `httpx.Response.raise_for_status` raises `httpx.HTTPStatusError`
exactly when the status code is not 2xx. -/
def isSuccessStatus (s : Nat) : Bool := 200 ≤ s && s ≤ 299

/-- `ClashAPI.check_connection` (lines 57-74), applied to the sequence
of per-port outcomes.  `Except.error` models an exception escaping the
method: only `httpx.RequestError` is caught (line 68), so a 200
response whose body does not parse as JSON makes `response.json()` at
line 64 raise through the caller.  A non-200 response falls through the
`if` at line 63 and the loop silently tries the next port.  `.ok true`
means the method returned `True` after adopting the port; `.ok false`
models the fall-through `return False` at line 74. -/
def check_connection : List HttpOutcome → Except Unit Bool
  | [] => .ok false
  | .transportError :: rest => check_connection rest
  | .response status body :: rest =>
    if status = 200 then
      match body with
      | .invalid => .error ()
      | .obj _ => .ok true
    else check_connection rest

/-- Python-dict insertion for the result cache (`Dict[str,
ProxyTestResult]`): replace the value in place if the key exists,
otherwise append. -/
def cacheInsert : List (String × ProxyTestResult) → String → ProxyTestResult →
    List (String × ProxyTestResult)
  | [], k, r => [(k, r)]
  | (k0, v0) :: rest, k, r =>
    if k0 == k then (k0, r) :: rest else (k0, v0) :: cacheInsert rest k r

/-- The cache check of lines 100-105: a hit is returned only when the
entry exists and is younger than 60 seconds. -/
def cacheFresh (cache : List (String × ProxyTestResult)) (proxy_name : String)
    (now : ℚ) : Option ProxyTestResult :=
  match List.lookup proxy_name cache with
  | some r => if now - r.tested_time < 60 then some r else none
  | none => none

instance {ε α : Type} [DecidableEq ε] [DecidableEq α] :
    DecidableEq (Except ε α) := fun a b =>
  match a, b with
  | .error e1, .error e2 =>
    if h : e1 = e2 then isTrue (by rw [h])
    else isFalse (by intro hh; cases hh; exact h rfl)
  | .ok v1, .ok v2 =>
    if h : v1 = v2 then isTrue (by rw [h])
    else isFalse (by intro hh; cases hh; exact h rfl)
  | .error _, .ok _ => isFalse (by intro hh; cases hh)
  | .ok _, .error _ => isFalse (by intro hh; cases hh)

/-- Observable behaviour of one `test_proxy_delay` call: the returned
value (or the exception, as `Except.error`), how many semaphore slots
were acquired and released, how many network requests were issued, and
the cache afterwards. -/
structure ProbeCall where
  result : Except Unit ProxyTestResult
  acquires : Nat
  releases : Nat
  requests : Nat
  cacheAfter : List (String × ProxyTestResult)
  deriving DecidableEq, Repr

/-- `ClashAPI.test_proxy_delay` (lines 95-122), for a call made after a
successful `check_connection` (so `base_url` is set, as at every call
site).  A fresh cache hit returns at line 105, before the
`async with self.semaphore` block at line 107, so it touches neither
the semaphore nor the network.  Otherwise one slot is acquired; the
request is issued; `raise_for_status` failures and transport failures
are `httpx.HTTPError`s caught at line 117 and turned into a failed
result; a 2xx body that does not parse as JSON raises
`json.JSONDecodeError` out of the method (the `async with` still
releases the slot, and line 121 is not reached so the cache is not
updated); otherwise `.get("delay")` feeds the constructor and the
result is cached (line 121) and returned. -/
def test_proxy_delay (cache : List (String × ProxyTestResult))
    (proxy_name : String) (now : ℚ) (out : HttpOutcome) (freshId : Nat) :
    ProbeCall :=
  match cacheFresh cache proxy_name now with
  | some cached =>
    { result := .ok cached, acquires := 0, releases := 0, requests := 0
      cacheAfter := cache }
  | none =>
    match out with
    | .transportError =>
      let r := ProxyTestResult.make freshId proxy_name none now
      { result := .ok r, acquires := 1, releases := 1, requests := 1
        cacheAfter := cacheInsert cache proxy_name r }
    | .response status body =>
      if isSuccessStatus status then
        match body with
        | .invalid =>
          { result := .error (), acquires := 1, releases := 1, requests := 1
            cacheAfter := cache }
        | .obj d =>
          let r := ProxyTestResult.make freshId proxy_name d now
          { result := .ok r, acquires := 1, releases := 1, requests := 1
            cacheAfter := cacheInsert cache proxy_name r }
      else
        let r := ProxyTestResult.make freshId proxy_name none now
        { result := .ok r, acquires := 1, releases := 1, requests := 1
          cacheAfter := cacheInsert cache proxy_name r }

/-- Outcome of `ClashConfig.__init__` (lines 133-143): load failure
(`FileNotFoundError` or `yaml.YAMLError`, both ending in
`sys.exit(1)`) or a loaded document. -/
inductive LoadOutcome where
  | failure
  | loaded (doc : ClashConfigDoc)
  deriving DecidableEq, Repr

/-- Outcome of the probing-and-updating phase, the `try` block of lines
319-353 up to `config.save()`: it completes, raises
`ClashAPIException` (caught and printed at line 355, after which `main`
returns normally), raises `KeyboardInterrupt` (a `BaseException`, not
caught inside `main`), or raises some other `Exception` (caught at
line 357 and re-raised). -/
inductive RunOutcome where
  | completed
  | clashApiError
  | interrupt
  | otherError
  deriving DecidableEq, Repr

/-- Inputs determining one whole run of the program. -/
structure MainEnv where
  load : LoadOutcome
  argGroups : Option (List String)
  conn : List HttpOutcome
  run : RunOutcome
  saveOk : Bool
  deriving DecidableEq, Repr

/-- Lines 298-302: `args.groups if args.groups else available_groups`
(an empty list is falsy), then, when unknown names are present,
`list(set(groups_to_test) & set(available_groups))`.  The set
intersection has unspecified order and drops duplicates; the model
keeps filter order, which agrees with the source on emptiness, the only
property the claims use. -/
def groupsToTest (doc : ClashConfigDoc) (argGroups : Option (List String)) :
    List String :=
  let available := doc.proxy_groups.map (·.name)
  let gs := match argGroups with
    | none => available
    | some [] => available
    | some l => l
  if gs.all (fun g => available.contains g) then gs
  else gs.filter (fun g => available.contains g)

/-- Exit code and whether `config.save()` ran to completion, for one
run: the dispatch of `main` (lines 278-359) combined with the
top-level handlers (lines 362-370).  Load failure exits 1 inside
`_load_config`; an empty group selection hits the `return` at
line 307, so `asyncio.run` finishes and the interpreter exits 0; a
`check_connection` exception escapes `main` (the call at line 316 is
outside the `try`) and reaches `except Exception` → `sys.exit(1)`; a
`False` connection result hits the `return` at line 317 → exit 0;
`KeyboardInterrupt` reaches the top-level handler → `sys.exit(0)`;
`ClashAPIException` is caught and printed, `main` returns → exit 0;
any other exception is re-raised at line 359 → `sys.exit(1)`; on
completion, `save` failure exits 1 (line 208), success exits 0. -/
def pythonMain (env : MainEnv) : Nat × Bool :=
  match env.load with
  | .failure => (1, false)
  | .loaded doc =>
    if groupsToTest doc env.argGroups = [] then (0, false)
    else
      match check_connection env.conn with
      | .error _ => (1, false)
      | .ok false => (0, false)
      | .ok true =>
        match env.run with
        | .interrupt => (0, false)
        | .clashApiError => (0, false)
        | .otherError => (1, false)
        | .completed => if env.saveOk then (0, true) else (1, false)

/-! ## Concrete inputs used by the counterexamples and witnesses -/

/-- Two valid results with equal delays, listed in input order
`exR1, exR2`. -/
def exR1 : ProxyTestResult := ProxyTestResult.make 0 "a" (some (.finite 10)) 0

def exR2 : ProxyTestResult := ProxyTestResult.make 1 "b" (some (.finite 10)) 0

def exDocC1 : ClashConfigDoc :=
  ClashConfigDoc.mk (some []) [ProxyGroup.mk "g" (some ["a", "b"])]

/-- A failing result and a valid result sharing the name `"a"`, as
produced by re-probing the same endpoint after its cache entry
expired. -/
def exFailA : ProxyTestResult := ProxyTestResult.make 2 "a" none 0

def exOkA : ProxyTestResult := ProxyTestResult.make 3 "a" (some (.finite 5)) 0

/-- Two distinct valid result objects sharing the name `"a"` but with
different delays, as produced by re-probing the same endpoint after its
cache entry expired. -/
def exRa : ProxyTestResult := ProxyTestResult.make 0 "a" (some (.finite 10)) 0

def exRb : ProxyTestResult := ProxyTestResult.make 1 "a" (some (.finite 20)) 0

def exDocC2 : ClashConfigDoc :=
  ClashConfigDoc.mk (some []) [ProxyGroup.mk "g" (some [])]

/-- A probe result cached at time 0. -/
def exCached : ProxyTestResult := ProxyTestResult.make 7 "x" (some (.finite 50)) 0

def exDocMain : ClashConfigDoc :=
  ClashConfigDoc.mk none [ProxyGroup.mk "g" (some ["a"])]

/-- Run environment: the groups resolve, the connection succeeds, then
the user interrupts during probing. -/
def envC6 : MainEnv :=
  MainEnv.mk (.loaded exDocMain) none
    [HttpOutcome.response 200 (JsonBody.obj none)] RunOutcome.interrupt true

/-- Run environment requesting only the nonexistent group `"h"`. -/
def envC7 : MainEnv :=
  MainEnv.mk (.loaded exDocMain) (some ["h"]) [] RunOutcome.completed true

/-- Run environment whose only candidate port refuses connections. -/
def envC7W : MainEnv :=
  MainEnv.mk (.loaded exDocMain) none [HttpOutcome.transportError]
    RunOutcome.completed true

/-- A document with two master entries and one group. -/
def exDocC10 : ClashConfigDoc :=
  ClashConfigDoc.mk (some [ProxyEntry.mk (some "a"), ProxyEntry.mk (some "b")])
    [ProxyGroup.mk "g1" (some ["a", "b"])]

/-- A failing probe result for endpoint `"a"`. -/
def exFail : ProxyTestResult := ProxyTestResult.make 5 "a" none 0

/-! ## Helper lemmas -/

theorem filter_idem {α : Type} (p : α → Bool) (l : List α) :
    (l.filter p).filter p = l.filter p := by
  induction l with
  | nil => rfl
  | cons a l ih =>
    by_cases h : p a = true <;> simp [List.filter_cons, h, ih]

theorem mem_invalidNames {results : List ProxyTestResult} {r : ProxyTestResult}
    (hr : r ∈ results) (hv : r.is_valid = false) :
    r.name ∈ invalidNames results := by
  unfold invalidNames
  exact List.mem_map.mpr ⟨r, List.mem_filter.mpr ⟨hr, by simp [hv]⟩, rfl⟩

theorem remove_invalid_group_names (doc : ClashConfigDoc)
    (results : List ProxyTestResult) :
    (remove_invalid_proxies doc results).proxy_groups.map (·.name) =
      doc.proxy_groups.map (·.name) := by
  unfold remove_invalid_proxies
  split
  · rfl
  · simp [List.map_map]

theorem updateFirstGroup_not_mem (gs : List ProxyGroup) (group_name : String)
    (ps : List String) (h : group_name ∉ gs.map (·.name)) :
    updateFirstGroup gs group_name ps = gs := by
  induction gs with
  | nil => rfl
  | cons g gs ih =>
    rw [List.map_cons, List.mem_cons] at h
    push_neg at h
    unfold updateFirstGroup
    rw [if_neg (fun hh => h.1 hh.symm), ih h.2]

theorem findGroup_updateFirstGroup (gs : List ProxyGroup) (group_name : String)
    (ps : List String) (h : group_name ∈ gs.map (·.name)) :
    ∃ g, findGroup (updateFirstGroup gs group_name ps) group_name = some g ∧
      g.proxies = some ps := by
  induction gs with
  | nil => simp at h
  | cons g gs ih =>
    by_cases hg : g.name = group_name
    · refine ⟨{ g with proxies := some ps }, ?_, rfl⟩
      unfold updateFirstGroup findGroup
      rw [if_pos hg]
      simp [List.find?_cons, hg]
    · rw [List.map_cons, List.mem_cons] at h
      rcases h with h1 | h1
      · exact absurd h1.symm hg
      · obtain ⟨g2, hfind, hps⟩ := ih h1
        refine ⟨g2, ?_, hps⟩
        unfold updateFirstGroup findGroup
        rw [if_neg hg]
        unfold findGroup at hfind
        simpa [List.find?_cons, hg] using hfind

theorem sortValidResults_spec (pySet : List ProxyTestResult → List ProxyTestResult)
    (results : List ProxyTestResult)
    (hset : IsPySetList (results.filter (·.is_valid))
      (pySet (results.filter (·.is_valid)))) :
    List.Sorted delayLE (sortValidResults pySet results) ∧
    (∀ r, r ∈ sortValidResults pySet results ↔ (r ∈ results ∧ r.is_valid = true)) ∧
    List.Pairwise (fun a b => a.objId ≠ b.objId) (sortValidResults pySet results) := by
  obtain ⟨h1, h2, h3⟩ := hset
  have hperm := List.perm_insertionSort delayLE (pySet (results.filter (·.is_valid)))
  refine ⟨List.sorted_insertionSort delayLE _, ?_, ?_⟩
  · intro r
    constructor
    · intro hr
      have hr2 : r ∈ pySet (results.filter (·.is_valid)) := hperm.mem_iff.mp hr
      exact List.mem_filter.mp (h1 r hr2)
    · intro hr
      have hf : r ∈ results.filter (·.is_valid) := List.mem_filter.mpr hr
      exact hperm.mem_iff.mpr (h2 r hf)
  · exact (List.Perm.pairwise_iff (fun hxy => Ne.symm hxy) hperm).mpr h3

/-! ## Claims C9 and C10 -/

/-- C9: for every configuration document and every list of probe
results, applying `remove_invalid_proxies` twice with the same results
yields the same document as applying it once (idempotence), and the
surviving entries of the master proxy list and of every group
membership keep their relative order (each is a sublist of the
original, group for group). -/
theorem C9_remove_invalid_idempotent_order_preserving
    (doc : ClashConfigDoc) (results : List ProxyTestResult) :
    remove_invalid_proxies (remove_invalid_proxies doc results) results =
        remove_invalid_proxies doc results ∧
    ((remove_invalid_proxies doc results).proxies.getD []).Sublist
        (doc.proxies.getD []) ∧
    List.Forall₂ (fun g g2 => g2.name = g.name ∧
        (g2.proxies.getD []).Sublist (g.proxies.getD []))
      doc.proxy_groups (remove_invalid_proxies doc results).proxy_groups := by
  by_cases hinv : invalidNames results = []
  · have h1 : remove_invalid_proxies doc results = doc := by
      unfold remove_invalid_proxies
      rw [if_pos hinv]
    refine ⟨by simp only [h1], by simp only [h1]; exact List.Sublist.refl _, ?_⟩
    simp only [h1]
    exact List.forall₂_same.mpr (fun g _ => ⟨rfl, List.Sublist.refl _⟩)
  · refine ⟨?_, ?_, ?_⟩
    · simp only [remove_invalid_proxies, if_neg hinv]
      refine congrArg₂ ClashConfigDoc.mk ?_ ?_
      · cases doc.proxies with
        | none => rfl
        | some ps => simp [filter_idem]
      · rw [List.map_map]
        refine List.map_congr_left (fun g _ => ?_)
        cases hgp : g.proxies <;>
          simp [Function.comp, hgp, filter_idem, ProxyGroup.mk.injEq]
    · simp only [remove_invalid_proxies, if_neg hinv]
      cases doc.proxies with
      | none => simp
      | some ps => simp [List.filter_sublist]
    · simp only [remove_invalid_proxies, if_neg hinv]
      refine List.forall₂_map_right_iff.mpr (List.forall₂_same.mpr (fun g _ => ⟨rfl, ?_⟩))
      cases g.proxies with
      | none => simp
      | some ps => simp [List.filter_sublist]

/-- C10: when the named group is absent from the document,
`update_group_proxies` still rewrites the document globally: it equals
`remove_invalid_proxies` of the document (so no group membership is
replaced by the sorted valid list), every failing name is gone from the
master proxy list and from every group membership, and the call returns
a document rather than failing. -/
theorem C10_update_group_absent_group
    (pySet : List ProxyTestResult → List ProxyTestResult) (doc : ClashConfigDoc)
    (group_name : String) (results : List ProxyTestResult)
    (habs : group_name ∉ doc.proxy_groups.map (·.name)) :
    update_group_proxies pySet doc group_name results =
        remove_invalid_proxies doc results ∧
    (∀ r ∈ results, r.is_valid = false →
      (∀ p ∈ (update_group_proxies pySet doc group_name results).proxies.getD [],
          p.name ≠ some r.name) ∧
      (∀ g ∈ (update_group_proxies pySet doc group_name results).proxy_groups,
          r.name ∉ g.proxies.getD [])) := by
  have heq : update_group_proxies pySet doc group_name results =
      remove_invalid_proxies doc results := by
    unfold update_group_proxies
    rw [updateFirstGroup_not_mem _ _ _
      (by rw [remove_invalid_group_names]; exact habs)]
  refine ⟨heq, ?_⟩
  intro r hr hv
  rw [heq]
  have hname : r.name ∈ invalidNames results := mem_invalidNames hr hv
  have hinv : invalidNames results ≠ [] := List.ne_nil_of_mem hname
  constructor
  · intro p hp
    simp only [remove_invalid_proxies, if_neg hinv] at hp
    cases hd : doc.proxies with
    | none => simp [hd] at hp
    | some ps =>
      simp only [hd, Option.map_some', Option.getD_some] at hp
      have hk : keepEntry (invalidNames results) p = true :=
        (List.mem_filter.mp hp).2
      intro hpn
      rw [keepEntry, hpn] at hk
      simp only [Bool.not_eq_eq_eq_not, Bool.not_true] at hk
      exact absurd ((List.elem_iff).mpr hname) (by simpa [List.contains] using hk)
  · intro g hg
    simp only [remove_invalid_proxies, if_neg hinv] at hg
    obtain ⟨g0, _, hge⟩ := List.mem_map.mp hg
    intro hmem
    rw [← hge] at hmem
    cases hg0 : g0.proxies with
    | none => simp [hg0] at hmem
    | some l =>
      simp only [hg0, Option.map_some', Option.getD_some] at hmem
      have hk := (List.mem_filter.mp hmem).2
      simp only [Bool.not_eq_eq_eq_not, Bool.not_true] at hk
      exact absurd ((List.elem_iff).mpr hname) (by simpa [List.contains] using hk)

theorem get_update_group (pySet : List ProxyTestResult → List ProxyTestResult)
    (doc : ClashConfigDoc) (group_name : String) (results : List ProxyTestResult)
    (hmem : group_name ∈ doc.proxy_groups.map (·.name)) :
    get_group_proxies (update_group_proxies pySet doc group_name results)
        group_name = (sortValidResults pySet results).map (·.name) := by
  obtain ⟨g, hfind, hps⟩ := findGroup_updateFirstGroup
    ((remove_invalid_proxies doc results).proxy_groups) group_name
    ((sortValidResults pySet results).map (·.name))
    (by rw [remove_invalid_group_names]; exact hmem)
  unfold get_group_proxies update_group_proxies
  simp only [hfind, hps, Option.getD_some]

/-! ## Claims C1 and C2 (amended forms) -/

/-- C1 (amended): for every admissible enumeration of
`list(set(valid_results))`, `update_group_proxies` replaces the named
group's membership with the names of the distinct valid results sorted
ascending by delay; every remaining member name belongs to some valid
result.  The order of equal-delay members follows the unspecified set
enumeration order, not the original input order (see the
counterexample). -/
theorem C1_update_group_sorted_valid
    (pySet : List ProxyTestResult → List ProxyTestResult) (doc : ClashConfigDoc)
    (group_name : String) (results : List ProxyTestResult)
    (hset : IsPySetList (results.filter (·.is_valid))
      (pySet (results.filter (·.is_valid))))
    (hmem : group_name ∈ doc.proxy_groups.map (·.name)) :
    ∃ s : List ProxyTestResult,
      get_group_proxies (update_group_proxies pySet doc group_name results)
          group_name = s.map (·.name) ∧
      List.Sorted delayLE s ∧
      (∀ r, r ∈ s ↔ (r ∈ results ∧ r.is_valid = true)) ∧
      (∀ n ∈ get_group_proxies (update_group_proxies pySet doc group_name results)
          group_name, ∃ r, r ∈ results ∧ r.is_valid = true ∧ r.name = n) := by
  obtain ⟨hsort, hmem2, _⟩ := sortValidResults_spec pySet results hset
  have hget := get_update_group pySet doc group_name results hmem
  refine ⟨sortValidResults pySet results, hget, hsort, hmem2, ?_⟩
  intro n hn
  rw [hget] at hn
  obtain ⟨r, hr, hrn⟩ := List.mem_map.mp hn
  obtain ⟨hr1, hr2⟩ := (hmem2 r).mp hr
  exact ⟨r, hr1, hr2, hrn⟩

/-- C2 (amended): `update_group_proxies` deduplicates the valid results
by Python object identity, not by endpoint name: the rewritten
membership is the name sequence of a list of results in which no object
occurs twice, but two distinct result objects sharing a name each
contribute an occurrence of that name (see the counterexample). -/
theorem C2_update_group_dedup_by_identity
    (pySet : List ProxyTestResult → List ProxyTestResult) (doc : ClashConfigDoc)
    (group_name : String) (results : List ProxyTestResult)
    (hset : IsPySetList (results.filter (·.is_valid))
      (pySet (results.filter (·.is_valid))))
    (hmem : group_name ∈ doc.proxy_groups.map (·.name)) :
    ∃ s : List ProxyTestResult,
      get_group_proxies (update_group_proxies pySet doc group_name results)
          group_name = s.map (·.name) ∧
      List.Pairwise (fun a b => a.objId ≠ b.objId) s ∧
      (∀ r, r ∈ s ↔ (r ∈ results ∧ r.is_valid = true)) := by
  obtain ⟨_, hmem2, hpw⟩ := sortValidResults_spec pySet results hset
  exact ⟨sortValidResults pySet results,
    get_update_group pySet doc group_name results hmem, hpw, hmem2⟩

/-! ## Claims C3 - C8 (amended forms) -/

/-- C3 (amended): the constructor sets `status` from whether the delay
argument was provided, not from its finiteness: `status = "ok"` iff the
argument is present and `status = "fail"` iff it is absent, in which
case `delay` is the infinite sentinel; a present finite argument gives
an ok result with that finite delay, but a present non-finite argument
(such as `float("inf")`) still gives `status = "ok"` (see the
counterexample). -/
theorem C3_status_reflects_argument (objId : Nat) (name : String)
    (arg : Option PyFloat) (now : ℚ) :
    ((ProxyTestResult.make objId name arg now).status = "ok" ↔
      arg.isSome = true) ∧
    ((ProxyTestResult.make objId name arg now).status = "fail" ↔ arg = none) ∧
    (arg = none → (ProxyTestResult.make objId name arg now).delay = .inf) ∧
    (∀ q : ℚ, arg = some (.finite q) →
      (ProxyTestResult.make objId name arg now).delay = .finite q ∧
      (ProxyTestResult.make objId name arg now).delay.isFinite = true) := by
  cases arg with
  | none => simp [ProxyTestResult.make]
  | some d =>
    simp only [ProxyTestResult.make, Option.isSome_some, reduceIte]
    refine ⟨by simp, by simp, by simp, ?_⟩
    intro q hq
    cases Option.some.inj hq
    exact ⟨rfl, rfl⟩

/-- C4 (amended): with no fresh cache entry, `test_proxy_delay` turns a
transport failure, a non-2xx status, and a 2xx JSON response with no
`delay` field into a returned fail-status result without raising; but a
2xx response whose body does not parse as JSON is the one and only case
in which an error escapes to the caller. -/
theorem C4_probe_failure_behaviour (cache : List (String × ProxyTestResult))
    (name : String) (now : ℚ) (out : HttpOutcome) (freshId : Nat)
    (hmiss : cacheFresh cache name now = none) :
    ((ProxyTestResult.make freshId name none now).status = "fail") ∧
    (out = .transportError →
      (test_proxy_delay cache name now out freshId).result =
        .ok (ProxyTestResult.make freshId name none now)) ∧
    (∀ st body, out = .response st body → isSuccessStatus st = false →
      (test_proxy_delay cache name now out freshId).result =
        .ok (ProxyTestResult.make freshId name none now)) ∧
    (∀ st, out = .response st (.obj none) → isSuccessStatus st = true →
      (test_proxy_delay cache name now out freshId).result =
        .ok (ProxyTestResult.make freshId name none now)) ∧
    ((test_proxy_delay cache name now out freshId).result = .error () ↔
      (∃ st, out = .response st .invalid ∧ isSuccessStatus st = true)) := by
  refine ⟨by simp [ProxyTestResult.make], ?_, ?_, ?_, ?_⟩
  · intro h
    subst h
    simp [test_proxy_delay, hmiss]
  · intro st body h hs
    subst h
    simp [test_proxy_delay, hmiss, hs]
  · intro st h hs
    subst h
    simp [test_proxy_delay, hmiss, hs]
  · constructor
    · intro herr
      cases out with
      | transportError => simp [test_proxy_delay, hmiss] at herr
      | response st body =>
        cases body with
        | invalid =>
          by_cases hs : isSuccessStatus st = true
          · exact ⟨st, rfl, hs⟩
          · simp [test_proxy_delay, hmiss, hs] at herr
        | obj d =>
          by_cases hs : isSuccessStatus st = true <;>
            simp [test_proxy_delay, hmiss, hs] at herr
    · rintro ⟨st, rfl, hs⟩
      simp [test_proxy_delay, hmiss, hs]

theorem check_connection_all_benign (outcomes : List HttpOutcome)
    (hall : ∀ o ∈ outcomes, o = HttpOutcome.transportError ∨
      ∃ st body, o = HttpOutcome.response st body ∧ st ≠ 200) :
    check_connection outcomes = .ok false := by
  induction outcomes with
  | nil => rfl
  | cons o rest ih =>
    have hrest := fun o2 ho => hall o2 (List.mem_cons_of_mem _ ho)
    rcases hall o (List.mem_cons_self _ _) with h | ⟨st, body, h, hst⟩
    · subst h
      simpa [check_connection] using ih hrest
    · subst h
      simpa [check_connection, hst] using ih hrest

theorem check_connection_adopts (pre post : List HttpOutcome) (d : Option PyFloat)
    (hpre : ∀ o ∈ pre, o = HttpOutcome.transportError ∨
      ∃ st body, o = HttpOutcome.response st body ∧ st ≠ 200) :
    check_connection (pre ++ HttpOutcome.response 200 (JsonBody.obj d) :: post) =
      .ok true := by
  induction pre with
  | nil => simp [check_connection]
  | cons o rest ih =>
    have hrest := fun o2 ho => hpre o2 (List.mem_cons_of_mem _ ho)
    rcases hpre o (List.mem_cons_self _ _) with h | ⟨st, body, h, hst⟩
    · subst h
      simpa [check_connection] using ih hrest
    · subst h
      simpa [check_connection, hst] using ih hrest

/-- C5 (amended): `check_connection` treats connection refusal, timeout
(both `httpx.RequestError`) and non-200 statuses as per-candidate
failures: it returns `False` without raising when every candidate fails
that way, and it still adopts a later healthy candidate after such
failures.  A 200 response whose body does not parse as JSON, however,
raises an error that escapes the call (see the counterexample). -/
theorem C5_check_connection_tolerates_failures (outcomes pre post : List HttpOutcome)
    (d : Option PyFloat)
    (hall : ∀ o ∈ outcomes, o = HttpOutcome.transportError ∨
      ∃ st body, o = HttpOutcome.response st body ∧ st ≠ 200)
    (hpre : ∀ o ∈ pre, o = HttpOutcome.transportError ∨
      ∃ st body, o = HttpOutcome.response st body ∧ st ≠ 200) :
    check_connection outcomes = .ok false ∧
    check_connection (pre ++ HttpOutcome.response 200 (JsonBody.obj d) :: post) =
      .ok true :=
  ⟨check_connection_all_benign outcomes hall, check_connection_adopts pre post d hpre⟩

/-- C6 (amended): a user interrupt during the run terminates the process
without completing `config.save()` and with a graceful handler, but the
exit code is 0 — `sys.exit(0)` at line 367 — so it is neither non-zero
nor distinguishable from success by exit code (see the
counterexample). -/
theorem C6_interrupt_no_save_exit_zero (env : MainEnv) (doc : ClashConfigDoc)
    (hload : env.load = .loaded doc)
    (hgroups : groupsToTest doc env.argGroups ≠ [])
    (hconn : check_connection env.conn = .ok true)
    (hrun : env.run = .interrupt) :
    pythonMain env = (0, false) := by
  simp [pythonMain, hload, hgroups, hconn, hrun]

/-- C7 (amended): when the requested-group intersection is empty, and
when no control-plane candidate is reachable, `main` returns normally
and the process exits with code 0 (not non-zero), without saving; exit
code 0 therefore does not imply a successful run.  The save completes
only when the run phase completes and the save succeeds, and then the
exit code is 0. -/
theorem C7_abort_paths_exit_zero (env : MainEnv) (doc : ClashConfigDoc)
    (hload : env.load = .loaded doc) :
    (groupsToTest doc env.argGroups = [] → pythonMain env = (0, false)) ∧
    (groupsToTest doc env.argGroups ≠ [] →
      check_connection env.conn = .ok false → pythonMain env = (0, false)) ∧
    ((pythonMain env).2 = true →
      (pythonMain env).1 = 0 ∧ env.run = RunOutcome.completed ∧
        env.saveOk = true) := by
  refine ⟨?_, ?_, ?_⟩
  · intro h
    simp [pythonMain, hload, h]
  · intro hg hc
    simp [pythonMain, hload, hg, hc]
  · intro hsave
    by_cases hg : groupsToTest doc env.argGroups = []
    · simp [pythonMain, hload, hg] at hsave
    · cases hc : check_connection env.conn with
      | error e => simp [pythonMain, hload, hg, hc] at hsave
      | ok b =>
        cases b with
        | false => simp [pythonMain, hload, hg, hc] at hsave
        | true =>
          cases hr : env.run with
          | interrupt => simp [pythonMain, hload, hg, hc, hr] at hsave
          | clashApiError => simp [pythonMain, hload, hg, hc, hr] at hsave
          | otherError => simp [pythonMain, hload, hg, hc, hr] at hsave
          | completed =>
            by_cases hs : env.saveOk = true
            · simp [pythonMain, hload, hg, hc, hr, hs]
            · simp [pythonMain, hload, hg, hc, hr, hs] at hsave

/-- C8 (amended): a `test_proxy_delay` call answered from a fresh cache
entry returns before the `async with self.semaphore` block: it acquires
no slot and issues no network request.  Every other call acquires
exactly one slot, issues exactly one request, and releases the slot
unconditionally — also when the JSON decode error propagates — and in
every case the number of releases equals the number of acquisitions. -/
theorem C8_semaphore_discipline (cache : List (String × ProxyTestResult))
    (name : String) (now : ℚ) (out : HttpOutcome) (freshId : Nat) :
    ((test_proxy_delay cache name now out freshId).releases =
      (test_proxy_delay cache name now out freshId).acquires) ∧
    ((cacheFresh cache name now).isSome = true →
      (test_proxy_delay cache name now out freshId).acquires = 0 ∧
      (test_proxy_delay cache name now out freshId).requests = 0) ∧
    (cacheFresh cache name now = none →
      (test_proxy_delay cache name now out freshId).acquires = 1 ∧
      (test_proxy_delay cache name now out freshId).releases = 1 ∧
      (test_proxy_delay cache name now out freshId).requests = 1) := by
  cases hc : cacheFresh cache name now with
  | some r =>
    refine ⟨?_, fun _ => ⟨?_, ?_⟩, fun h => by simp [hc] at h⟩ <;>
      simp [test_proxy_delay, hc]
  | none =>
    have h3 : (test_proxy_delay cache name now out freshId).acquires = 1 ∧
        (test_proxy_delay cache name now out freshId).releases = 1 ∧
        (test_proxy_delay cache name now out freshId).requests = 1 := by
      cases out with
      | transportError => simp [test_proxy_delay, hc]
      | response st body =>
        by_cases hs : isSuccessStatus st = true
        · cases body <;> simp [test_proxy_delay, hc, hs]
        · simp [test_proxy_delay, hc, hs]
    exact ⟨by rw [h3.1, h3.2.1], fun hsome => by simp [hc] at hsome,
      fun _ => h3⟩

/-! ## Counterexamples and witnesses -/

/-- C1 counterexample: two failures of the claim at concrete inputs.
First, stability: reversal is an admissible enumeration of
`list(set(...))`, and under it the two valid equal-delay results
`exR1` (name `"a"`, first in the input) and `exR2` (name `"b"`, second)
come out as `["b", "a"]`: the equal-delay pair does not keep its
original relative order.  Second, the no-failing-name part: with the
failing result `exFailA` and the valid result `exOkA` sharing the name
`"a"`, the rewrite first removes `"a"` everywhere and then writes it
back from the valid result, so the failing-status endpoint name `"a"`
remains in the target group's membership. -/
theorem C1_counterexample :
    (IsPySetList ([exR1, exR2].filter (·.is_valid))
      (List.reverse ([exR1, exR2].filter (·.is_valid))) ∧
    exR1.is_valid = true ∧ exR2.is_valid = true ∧
    exR1.delay = exR2.delay ∧
    get_group_proxies
      (update_group_proxies List.reverse exDocC1 "g" [exR1, exR2]) "g" =
      ["b", "a"]) ∧
    (IsPySetList ([exFailA, exOkA].filter (·.is_valid))
      (id ([exFailA, exOkA].filter (·.is_valid))) ∧
    exFailA.is_valid = false ∧ exFailA.name = "a" ∧ exOkA.name = "a" ∧
    get_group_proxies
      (update_group_proxies id exDocC1 "g" [exFailA, exOkA]) "g" = ["a"] ∧
    exFailA.name ∈ get_group_proxies
      (update_group_proxies id exDocC1 "g" [exFailA, exOkA]) "g") :=
  ⟨⟨by decide, by decide, by decide, by decide, by decide⟩,
    by decide, by decide, by decide, by decide, by decide, by decide⟩

/-- C1 witness: the amended theorem applied to the identity enumeration
on the same inputs. -/
theorem C1_update_group_sorted_valid_witness :
    IsPySetList ([exR1, exR2].filter (·.is_valid))
      (id ([exR1, exR2].filter (·.is_valid))) ∧
    "g" ∈ exDocC1.proxy_groups.map (·.name) ∧
    (∃ s : List ProxyTestResult,
      get_group_proxies (update_group_proxies id exDocC1 "g" [exR1, exR2])
          "g" = s.map (·.name) ∧
      List.Sorted delayLE s ∧
      (∀ r, r ∈ s ↔ (r ∈ [exR1, exR2] ∧ r.is_valid = true)) ∧
      (∀ n ∈ get_group_proxies (update_group_proxies id exDocC1 "g" [exR1, exR2])
          "g", ∃ r, r ∈ [exR1, exR2] ∧ r.is_valid = true ∧ r.name = n)) :=
  ⟨by decide, by decide,
    C1_update_group_sorted_valid id exDocC1 "g" [exR1, exR2]
      (by decide) (by decide)⟩

/-- C2 counterexample: the two distinct valid result objects `exRa` and
`exRb` share the name `"a"`; the identity enumeration is admissible
(they are distinct objects), yet the rewritten membership is
`["a", "a"]`: the name occurs twice, refuting deduplication by name. -/
theorem C2_counterexample :
    IsPySetList ([exRa, exRb].filter (·.is_valid))
      (id ([exRa, exRb].filter (·.is_valid))) ∧
    exRa.name = exRb.name ∧ exRa ≠ exRb ∧
    get_group_proxies (update_group_proxies id exDocC2 "g" [exRa, exRb]) "g" =
      ["a", "a"] ∧
    2 ≤ List.count "a"
      (get_group_proxies (update_group_proxies id exDocC2 "g" [exRa, exRb]) "g") :=
  ⟨by decide, by decide, by decide, by decide, by decide⟩

/-- C2 witness: the amended theorem applied to the identity enumeration
on the same inputs. -/
theorem C2_update_group_dedup_by_identity_witness :
    IsPySetList ([exRa, exRb].filter (·.is_valid))
      (id ([exRa, exRb].filter (·.is_valid))) ∧
    "g" ∈ exDocC2.proxy_groups.map (·.name) ∧
    (∃ s : List ProxyTestResult,
      get_group_proxies (update_group_proxies id exDocC2 "g" [exRa, exRb])
          "g" = s.map (·.name) ∧
      List.Pairwise (fun a b => a.objId ≠ b.objId) s ∧
      (∀ r, r ∈ s ↔ (r ∈ [exRa, exRb] ∧ r.is_valid = true))) :=
  ⟨by decide, by decide,
    C2_update_group_dedup_by_identity id exDocC2 "g" [exRa, exRb]
      (by decide) (by decide)⟩

/-- C3 counterexample: constructing a result with the explicit argument
`float("inf")` — producible, since the JSON parser used by the client
accepts `Infinity` for the `delay` field — yields `status = "ok"`
together with a non-finite delay, refuting the claimed equivalence of
ok status and finite delay. -/
theorem C3_counterexample :
    (ProxyTestResult.make 0 "a" (some PyFloat.inf) 0).status = "ok" ∧
    (ProxyTestResult.make 0 "a" (some PyFloat.inf) 0).delay = PyFloat.inf ∧
    (ProxyTestResult.make 0 "a" (some PyFloat.inf) 0).delay.isFinite = false :=
  ⟨rfl, rfl, rfl⟩

/-- C3 witness: the amended theorem applied to a provided finite
argument. -/
theorem C3_status_reflects_argument_witness :
    (((ProxyTestResult.make 1 "b" (some (.finite 5)) 0).status = "ok" ↔
      (some (PyFloat.finite 5)).isSome = true) ∧
    ((ProxyTestResult.make 1 "b" (some (.finite 5)) 0).status = "fail" ↔
      (some (PyFloat.finite 5)) = none) ∧
    ((some (PyFloat.finite 5)) = none →
      (ProxyTestResult.make 1 "b" (some (.finite 5)) 0).delay = .inf) ∧
    (∀ q : ℚ, (some (PyFloat.finite 5)) = some (.finite q) →
      (ProxyTestResult.make 1 "b" (some (.finite 5)) 0).delay = .finite q ∧
      (ProxyTestResult.make 1 "b" (some (.finite 5)) 0).delay.isFinite = true)) :=
  C3_status_reflects_argument 1 "b" (some (.finite 5)) 0

/-- C4 counterexample: an empty cache and a 200 response whose body does
not parse as JSON make `test_proxy_delay` raise to its caller instead
of returning a fail-status result. -/
theorem C4_counterexample :
    (test_proxy_delay [] "a" 0 (HttpOutcome.response 200 JsonBody.invalid) 0).result =
      .error () := rfl

/-- C4 witness: the amended theorem applied to a transport failure with
an empty cache. -/
theorem C4_probe_failure_behaviour_witness :
    cacheFresh [] "a" 0 = none ∧
    (test_proxy_delay [] "a" 0 HttpOutcome.transportError 3).result =
      .ok (ProxyTestResult.make 3 "a" none 0) :=
  ⟨rfl, (C4_probe_failure_behaviour [] "a" 0 HttpOutcome.transportError 3 rfl).2.1 rfl⟩

/-- C5 counterexample: a single candidate answering 200 with an
unparseable body makes `check_connection` raise instead of returning
`False`. -/
theorem C5_counterexample :
    check_connection [HttpOutcome.response 200 JsonBody.invalid] = .error () := rfl

/-- C5 witness: the amended theorem applied to one refused candidate
followed by a 404 candidate, and to a refused candidate followed by a
healthy one. -/
theorem C5_check_connection_tolerates_failures_witness :
    check_connection
      [HttpOutcome.transportError, HttpOutcome.response 404 (JsonBody.obj none)] =
      .ok false ∧
    check_connection
      ([HttpOutcome.transportError] ++
        HttpOutcome.response 200 (JsonBody.obj (some (.finite 3))) ::
          [HttpOutcome.transportError]) = .ok true :=
  C5_check_connection_tolerates_failures
    [HttpOutcome.transportError, HttpOutcome.response 404 (JsonBody.obj none)]
    [HttpOutcome.transportError] [HttpOutcome.transportError]
    (some (.finite 3))
    (by
      intro o ho
      simp only [List.mem_cons, List.not_mem_nil, or_false] at ho
      rcases ho with rfl | rfl
      · exact Or.inl rfl
      · exact Or.inr ⟨404, JsonBody.obj none, rfl, by decide⟩)
    (by
      intro o ho
      simp only [List.mem_cons, List.not_mem_nil, or_false] at ho
      rcases ho with rfl
      exact Or.inl rfl)

/-- C6 counterexample: in a run that is interrupted after a successful
connection, the process exits with code 0 — not the claimed non-zero
code — and without saving. -/
theorem C6_counterexample :
    envC6.run = RunOutcome.interrupt ∧ pythonMain envC6 = (0, false) :=
  ⟨rfl, rfl⟩

/-- C6 witness: the amended theorem applied to `envC6`. -/
theorem C6_interrupt_no_save_exit_zero_witness :
    envC6.load = LoadOutcome.loaded exDocMain ∧
    groupsToTest exDocMain envC6.argGroups ≠ [] ∧
    check_connection envC6.conn = .ok true ∧
    envC6.run = RunOutcome.interrupt ∧
    pythonMain envC6 = (0, false) :=
  ⟨rfl, by decide, rfl, rfl,
    C6_interrupt_no_save_exit_zero envC6 exDocMain rfl (by decide) rfl rfl⟩

/-- C7 counterexample: requesting only the nonexistent group `"h"`
leaves an empty selection, and the process exits with code 0 — not the
claimed non-zero code. -/
theorem C7_counterexample :
    groupsToTest exDocMain (some ["h"]) = [] ∧ pythonMain envC7 = (0, false) :=
  ⟨by decide, by decide⟩

/-- C7 witness: the amended theorem applied to a run whose only
candidate port refuses connections. -/
theorem C7_abort_paths_exit_zero_witness :
    groupsToTest exDocMain envC7W.argGroups ≠ [] ∧
    check_connection envC7W.conn = .ok false ∧
    pythonMain envC7W = (0, false) :=
  ⟨by decide, rfl,
    (C7_abort_paths_exit_zero envC7W exDocMain rfl).2.1 (by decide) rfl⟩

/-- C8 counterexample: a call answered from a fresh cache entry acquires
zero semaphore slots, refuting the claim that every call — including
cache-answered ones — acquires exactly one. -/
theorem C8_counterexample :
    (cacheFresh [("x", exCached)] "x" 10).isSome = true ∧
    (test_proxy_delay [("x", exCached)] "x" 10 HttpOutcome.transportError 9).acquires = 0 ∧
    (test_proxy_delay [("x", exCached)] "x" 10 HttpOutcome.transportError 9).result =
      .ok exCached := by
  have hc : cacheFresh [("x", exCached)] "x" 10 = some exCached := by
    simp [cacheFresh, List.lookup, exCached, ProxyTestResult.make]
    norm_num
  refine ⟨by rw [hc]; rfl, ?_, ?_⟩ <;> simp [test_proxy_delay, hc]

/-- C8 witness: the amended theorem applied to an empty cache. -/
theorem C8_semaphore_discipline_witness :
    cacheFresh [] "x" 0 = none ∧
    ((test_proxy_delay [] "x" 0 HttpOutcome.transportError 1).acquires = 1 ∧
      (test_proxy_delay [] "x" 0 HttpOutcome.transportError 1).releases = 1 ∧
      (test_proxy_delay [] "x" 0 HttpOutcome.transportError 1).requests = 1) :=
  ⟨rfl, (C8_semaphore_discipline [] "x" 0 HttpOutcome.transportError 1).2.2 rfl⟩

/-- C10 witness: the theorem applied to a document without the group
`"zz"` and one failing result. -/
theorem C10_update_group_absent_group_witness :
    "zz" ∉ exDocC10.proxy_groups.map (·.name) ∧
    update_group_proxies id exDocC10 "zz" [exFail] =
      remove_invalid_proxies exDocC10 [exFail] :=
  ⟨by decide, (C10_update_group_absent_group id exDocC10 "zz" [exFail] (by decide)).1⟩
